import Mathlib

/-!
Verification of the directory-rendering module (src/modules/directory.rs).

The module decomposes a path into components, contracts a top-level
ancestor (home directory) to a symbolic token, truncates the component
sequence, optionally abbreviates the elided head fish-style, and renders
Windows/POSIX prefixes.  Paths are embedded as lists of typed components,
mirroring Rust's std::path::Component; strings are Lean strings and the
byte-level slice of the live fish-style code is modelled exactly
(returning none where Rust would panic).
-/

namespace StarshipDir

/-- Rust std::path::Prefix: the platform prefix of a Windows path. -/
inductive WinPfxKind where
  | disk (d : Char)
  | verbatimDisk (d : Char)
  | unc (server share : String)
  | verbatimUNC (server share : String)
  | verbatim (p : String)
  | deviceNS (p : String)
deriving DecidableEq, Repr

/-- Rust std::path::Component. -/
inductive Component where
  | pfx (k : WinPfxKind)
  | rootDir
  | curDir
  | parentDir
  | normal (s : String)
deriving DecidableEq, Repr

/-- Repo data handed over by the version-control collaborator: an optional
repository root.  The module only receives it through `get_repo`. -/
structure Repo where
  root : Option (List Component)
deriving Repr

/-- The two configuration fields the live render path reads. -/
structure DirectoryConfig where
  truncation_length : Nat
  fish_style_pwd_dir_length : Nat
deriving Repr

def HOME_SYMBOL : String := "~"

def ELLIPSIS : String := "…"

/-- Rust char::to_ascii_lowercase: shift ASCII uppercase by 32, leave
everything else unchanged. -/
def to_ascii_lowercase (c : Char) : Char :=
  if 'A' ≤ c ∧ c ≤ 'Z' then Char.ofNat (c.toNat + 32) else c

/-- get_windows_prefix (directory.rs lines 169-198): render a Windows
path prefix in the style of the target separator. -/
def get_windows_pfx (k : WinPfxKind) (separator : String) : String :=
  match k with
  | .disk d | .verbatimDisk d =>
    if separator.data.head? = some '/' then
      String.singleton '/' ++ String.singleton (to_ascii_lowercase d)
    else
      String.singleton (to_ascii_lowercase d) ++ String.singleton ':'
  | .unc server share | .verbatimUNC server share =>
    separator ++ separator ++ server ++ separator ++ share
  | .verbatim p | .deviceNS p => p

/-- Rust Path::strip_prefix specialised to decomposed component lists:
remove `top` from the front of `full` component by component, failing if
`top` is not a component-wise ancestor. -/
def strip_pfx : List Component → List Component → Option (List Component)
  | rest, [] => some rest
  | [], _ :: _ => none
  | f :: fs, t :: ts => if f = t then strip_pfx fs ts else none

/-- contract_path (directory.rs lines 204-215): replace `top` at the head
of `full` by the token; `if p.to_str() != Some("")` guards the push of an
empty remainder. -/
def contract_path (full top : List Component) (tok : String) : List Component :=
  match strip_pfx full top with
  | some p => if p = [] then [Component.normal tok] else Component.normal tok :: p
  | none => full

/-- The partition predicate of directory.rs lines 56-59: prefix and root
components go to the front group. -/
def isPfxComponent : Component → Bool
  | .pfx _ => true
  | .rootDir => true
  | _ => false

/-- Rendering of one prefix-group component (directory.rs lines 63-71);
the `unreachable!()` arm is `none`. -/
def renderPfxComponent (separator : String) : Component → Option String
  | .pfx k => some (get_windows_pfx k separator)
  | .rootDir => some separator
  | _ => none

/-- directory.rs lines 73-75: `path_parts.len().saturating_sub(truncation_length)`. -/
def first_full_part (parts : List Component) (len : Nat) : Nat :=
  parts.length - len

/-- The elided head `&path_parts[0..first_full_part]` (line 77). -/
def elided_head (parts : List Component) (len : Nat) : List Component :=
  parts.take (first_full_part parts len)

/-- The shown tail `path_parts[first_full_part..]` (line 100). -/
def shown_tail (parts : List Component) (len : Nat) : List Component :=
  parts.drop (first_full_part parts len)

/-- Model of the Rust byte slice `&s[0..n]` on a UTF-8 string, as the
list of characters whose encodings make up the first `n` bytes: `none`
when `n` overruns the string or falls inside a multi-byte character
(Rust panics there). -/
def byteSliceList : List Char → Nat → Option (List Char)
  | _, 0 => some []
  | [], _ + 1 => none
  | c :: cs, n + 1 =>
    if c.utf8Size ≤ n + 1 then
      (byteSliceList cs (n + 1 - c.utf8Size)).map (fun l => c :: l)
    else none

/-- `p.to_string_lossy()[0..n].to_string()` of directory.rs lines 85-87. -/
def byteSlice (s : String) (n : Nat) : Option String :=
  (byteSliceList s.data n).map (fun l => String.mk l)

/-- Fish-style rendering of one elided component (directory.rs lines
82-88): CurDir and ParentDir render verbatim, Normal components are
byte-sliced to the configured length, the `unreachable!()` arm is `none`. -/
def fishComponentRender (n : Nat) : Component → Option String
  | .curDir => some "."
  | .parentDir => some ".."
  | .normal p => byteSlice p n
  | _ => none

/-- Rendering of one shown-tail component (directory.rs lines 102-107). -/
def componentRender : Component → Option String
  | .curDir => some "."
  | .parentDir => some ".."
  | .normal p => some p
  | _ => none

/-- Rust `Vec::join` on strings. -/
def joinSep (separator : String) : List String → String
  | [] => ""
  | p :: ps => ps.foldl (fun acc q => acc ++ separator ++ q) p

/-- The live render path of `module` (directory.rs lines 51-110), with
the environment-supplied values (current directory, home directory, the
repo lookup result, configuration, separator) passed as inputs.  `none`
models the module producing no output, either through the early return
`.ok()?` on line 51 or through a panic in component rendering. -/
def module_render (current_dir home_dir : List Component)
    (repoResult : Except Unit Repo) (config : DirectoryConfig)
    (separator : String) : Option String := do
  let _repo ← repoResult.toOption
  let home_dir_contracted := contract_path current_dir home_dir HOME_SYMBOL
  let (pfxParts, path_parts) := home_dir_contracted.partition (fun c => isPfxComponent c)
  let pfxStrs ← pfxParts.mapM (renderPfxComponent separator)
  let result := String.join pfxStrs
  let truncated_parts := elided_head path_parts config.truncation_length
  let result ←
    if truncated_parts.length > 0 then
      if config.fish_style_pwd_dir_length > 0 then do
        let strs ← truncated_parts.mapM (fishComponentRender config.fish_style_pwd_dir_length)
        pure (result ++ joinSep separator strs ++ separator)
      else
        pure (result ++ ELLIPSIS ++ separator)
    else pure result
  let fullStrs ← (shown_tail path_parts config.truncation_length).mapM componentRender
  pure (result ++ joinSep separator fullStrs)

/-! ### Properties of strip_pfx / contract_path -/

theorem strip_pfx_eq_some_iff {full top r : List Component} :
    strip_pfx full top = some r ↔ full = top ++ r := by
  induction top generalizing full with
  | nil => simp [strip_pfx]
  | cons t ts ih =>
    cases full with
    | nil => simp [strip_pfx]
    | cons f fs =>
      by_cases hft : f = t
      · subst hft
        simp [strip_pfx, ih]
      · simp [strip_pfx, hft]

theorem strip_pfx_eq_none_of_not {full top : List Component}
    (h : ¬ top <+: full) : strip_pfx full top = none := by
  cases hs : strip_pfx full top with
  | none => rfl
  | some r => exact absurd ⟨r, (strip_pfx_eq_some_iff.mp hs).symm⟩ h

theorem contract_path_of_some (full top : List Component) (tok : String)
    (r : List Component) (h : strip_pfx full top = some r) :
    contract_path full top tok = Component.normal tok :: r := by
  unfold contract_path
  rw [h]
  cases r with
  | nil => simp
  | cons x xs => simp

/-! ### Claim theorems -/

/-- C3: contract_path replaces a component-wise top-level ancestor by the
token followed by the remaining components, returns the token alone when
the path equals the top-level path, and returns the path unchanged
otherwise; contracting /Users/astronaut/schematics/rocket under
/Users/astronaut with token ~ yields ~/schematics/rocket. -/
theorem C3_contract_path_spec (full top : List Component) (tok : String) :
    (top <+: full → contract_path full top tok
      = Component.normal tok :: full.drop top.length) ∧
    (full = top → contract_path full top tok = [Component.normal tok]) ∧
    (¬ top <+: full → contract_path full top tok = full) ∧
    contract_path
      [Component.rootDir, Component.normal "Users", Component.normal "astronaut",
       Component.normal "schematics", Component.normal "rocket"]
      [Component.rootDir, Component.normal "Users", Component.normal "astronaut"] "~"
      = [Component.normal "~", Component.normal "schematics", Component.normal "rocket"] := by
  refine ⟨?_, ?_, ?_, ?_⟩
  · intro h
    obtain ⟨r, hr⟩ := h
    have hs : strip_pfx full top = some r := strip_pfx_eq_some_iff.mpr hr.symm
    rw [contract_path_of_some full top tok r hs, ← hr, List.drop_left]
  · intro h
    subst h
    have hs : strip_pfx full full = some [] := strip_pfx_eq_some_iff.mpr (by simp)
    rw [contract_path_of_some full full tok [] hs]
  · intro h
    simp [contract_path, strip_pfx_eq_none_of_not h]
  · decide

/-- Witness for C3: the three hypotheses discharged at concrete paths. -/
theorem C3_contract_path_spec_witness :
    contract_path
      [Component.rootDir, Component.normal "Users", Component.normal "astronaut",
       Component.normal "schematics", Component.normal "rocket"]
      [Component.rootDir, Component.normal "Users", Component.normal "astronaut"] "~"
      = Component.normal "~" ::
        List.drop 3
          [Component.rootDir, Component.normal "Users", Component.normal "astronaut",
           Component.normal "schematics", Component.normal "rocket"] ∧
    contract_path [Component.rootDir, Component.normal "h"]
      [Component.rootDir, Component.normal "h"] "~" = [Component.normal "~"] ∧
    contract_path [Component.rootDir, Component.normal "a"]
      [Component.rootDir, Component.normal "b"] "~"
      = [Component.rootDir, Component.normal "a"] :=
  ⟨(C3_contract_path_spec _ _ "~").1
      ⟨[Component.normal "schematics", Component.normal "rocket"], rfl⟩,
   (C3_contract_path_spec _ _ "~").2.1 rfl,
   (C3_contract_path_spec _ _ "~").2.2.1 (by decide)⟩

/-- C4: contraction never triggers on sibling paths that share a string
prefix but differ in a final component, because matching is
component-wise: the input comes back unchanged. -/
theorem C4_sibling_not_contracted (pre : List Component) (a b : String)
    (rest : List Component) (tok : String) (h : a ≠ b) :
    contract_path (pre ++ Component.normal a :: rest)
      (pre ++ [Component.normal b]) tok
      = pre ++ Component.normal a :: rest := by
  have hnp : ¬ (pre ++ [Component.normal b]) <+: (pre ++ Component.normal a :: rest) := by
    intro hp
    obtain ⟨r, hr⟩ := hp
    rw [List.append_assoc] at hr
    have h2 := List.append_cancel_left hr
    simp only [List.singleton_append, List.cons.injEq, Component.normal.injEq] at h2
    exact h h2.1.symm
  simp [contract_path, strip_pfx_eq_none_of_not hnp]

/-- Witness for C4: /home/bob2 does not contract under top-level /home/bob. -/
theorem C4_sibling_not_contracted_witness :
    contract_path [Component.rootDir, Component.normal "home", Component.normal "bob2"]
      [Component.rootDir, Component.normal "home", Component.normal "bob"] "~"
      = [Component.rootDir, Component.normal "home", Component.normal "bob2"] :=
  C4_sibling_not_contracted [Component.rootDir, Component.normal "home"]
    "bob2" "bob" [] "~" (by decide)

/-- C5: for truncation length L > 0 the shown tail has exactly
min(L, component count) components and rejoining head and tail gives back
the original sequence in order. -/
theorem C5_truncation_bound (parts : List Component) (L : Nat) (h : 0 < L) :
    (shown_tail parts L).length = min L parts.length ∧
    elided_head parts L ++ shown_tail parts L = parts := by
  constructor
  · simp only [shown_tail, first_full_part, List.length_drop]
    omega
  · simp only [elided_head, shown_tail, first_full_part]
    exact List.take_append_drop _ _

/-- Witness for C5 at a three-component sequence with length 2. -/
theorem C5_truncation_bound_witness :
    (shown_tail [Component.normal "a", Component.normal "b", Component.normal "c"] 2).length
      = min 2 [Component.normal "a", Component.normal "b", Component.normal "c"].length ∧
    elided_head [Component.normal "a", Component.normal "b", Component.normal "c"] 2
      ++ shown_tail [Component.normal "a", Component.normal "b", Component.normal "c"] 2
      = [Component.normal "a", Component.normal "b", Component.normal "c"] :=
  C5_truncation_bound [Component.normal "a", Component.normal "b", Component.normal "c"]
    2 (by decide)

/-- C8: contract_path is idempotent whenever the token does not itself
appear as a literal top-level path, i.e. the nonempty top-level path does
not begin with the token as its leading component: the contracted result
starts with the Normal token component, which then never matches the
first component of the top-level path, so a second contraction is the
identity.  This covers POSIX roots and Windows drive-prefixed top-level
paths alike. -/
theorem C8_contract_idempotent (p top : List Component) (tok : String)
    (h1 : top ≠ []) (h2 : top.head? ≠ some (Component.normal tok)) :
    contract_path (contract_path p top tok) top tok = contract_path p top tok := by
  cases top with
  | nil => exact absurd rfl h1
  | cons t ts =>
    cases hs : strip_pfx p (t :: ts) with
    | none => simp [contract_path, hs]
    | some q =>
      rw [contract_path_of_some _ _ _ _ hs]
      have ht : Component.normal tok ≠ t := by
        intro he
        subst he
        exact h2 rfl
      have hn : strip_pfx (Component.normal tok :: q) (t :: ts) = none := by
        simp [strip_pfx, ht]
      simp [contract_path, hn]

/-- Witness for C8 at a Windows drive-prefixed home contraction. -/
theorem C8_contract_idempotent_witness :
    contract_path
      (contract_path
        [Component.pfx (WinPfxKind.disk 'C'), Component.rootDir, Component.normal "Users",
         Component.normal "astronaut", Component.normal "schematics"]
        [Component.pfx (WinPfxKind.disk 'C'), Component.rootDir, Component.normal "Users",
         Component.normal "astronaut"] "~")
      [Component.pfx (WinPfxKind.disk 'C'), Component.rootDir, Component.normal "Users",
       Component.normal "astronaut"] "~"
      = contract_path
        [Component.pfx (WinPfxKind.disk 'C'), Component.rootDir, Component.normal "Users",
         Component.normal "astronaut", Component.normal "schematics"]
        [Component.pfx (WinPfxKind.disk 'C'), Component.rootDir, Component.normal "Users",
         Component.normal "astronaut"] "~" :=
  C8_contract_idempotent
    [Component.pfx (WinPfxKind.disk 'C'), Component.rootDir, Component.normal "Users",
     Component.normal "astronaut", Component.normal "schematics"]
    [Component.pfx (WinPfxKind.disk 'C'), Component.rootDir, Component.normal "Users",
     Component.normal "astronaut"] "~" (by decide) (by decide)

/-- C9: a drive-letter path prefix (plain or verbatim disk) renders as
the lower-cased letter followed by a colon when the separator is a
backslash, and as a slash followed by the lower-cased letter when the
separator is a slash. -/
theorem C9_drive_rendering (d : Char) :
    get_windows_pfx (WinPfxKind.disk d) "\\"
      = String.singleton (to_ascii_lowercase d) ++ ":" ∧
    get_windows_pfx (WinPfxKind.verbatimDisk d) "\\"
      = String.singleton (to_ascii_lowercase d) ++ ":" ∧
    get_windows_pfx (WinPfxKind.disk d) "/"
      = "/" ++ String.singleton (to_ascii_lowercase d) ∧
    get_windows_pfx (WinPfxKind.verbatimDisk d) "/"
      = "/" ++ String.singleton (to_ascii_lowercase d) :=
  ⟨rfl, rfl, rfl, rfl⟩

/-- C1: the live fish-style code byte-slices each elided Normal component
with `[0..fish_style_pwd_dir_length]`; on the component 目录 with length 1
the slice boundary falls inside the three-byte character 目, so the code
panics (modelled as none) instead of producing the grapheme prefix 目,
both for the single component and for the whole render. -/
theorem C1_fish_byte_slice_panics :
    fishComponentRender 1 (Component.normal "目录") = none ∧
    module_render
      [Component.rootDir, Component.normal "目录", Component.normal "a"]
      [Component.rootDir, Component.normal "h"]
      (Except.ok (Repo.mk none)) (DirectoryConfig.mk 1 1) "/" = none := by
  constructor
  · rfl
  · rfl

/-- C2: with truncation_length = 0 the live code computes
first_full_part = len - 0 = len, so every component lands in the elided
head and the shown tail is empty; the render of /a/b collapses to an
ellipsis and no component of the path appears in the output. -/
theorem C2_length_zero_elides_everything :
    elided_head [Component.normal "a"] 0 = [Component.normal "a"] ∧
    shown_tail [Component.normal "a"] 0 = [] ∧
    module_render
      [Component.rootDir, Component.normal "a", Component.normal "b"]
      [Component.rootDir, Component.normal "home"]
      (Except.ok (Repo.mk none)) (DirectoryConfig.mk 0 0) "/" = some "/…/" := by
  refine ⟨rfl, rfl, rfl⟩

/-- C6: the live fish-style code gives dot-prefixed components no special
treatment: byte-slicing .starship with length 1 yields "." rather than
the ".s" the spec and the repository's own test expect; CurDir and
ParentDir do render verbatim as "." and "..". -/
theorem C6_dot_component_not_special :
    fishComponentRender 1 (Component.normal ".starship") = some "." ∧
    fishComponentRender 1 Component.curDir = some "." ∧
    fishComponentRender 1 Component.parentDir = some ".." := by
  refine ⟨rfl, rfl, rfl⟩

/-- C7: `context.get_repo().ok()?` aborts the whole module when the
repository lookup fails, so no rendered path is produced at all (none),
while a successful lookup carrying no repo root still renders via home
contraction. -/
theorem C7_repo_error_aborts_render :
    module_render [Component.rootDir, Component.normal "a"]
      [Component.rootDir, Component.normal "h"]
      (Except.error ()) (DirectoryConfig.mk 3 0) "/" = none ∧
    module_render [Component.rootDir, Component.normal "a"]
      [Component.rootDir, Component.normal "h"]
      (Except.ok (Repo.mk none)) (DirectoryConfig.mk 3 0) "/" = some "/a" := by
  constructor
  · rfl
  · rfl

/-- C10: the byte-slice `[0..n]` of the live fish-style code is partial:
it panics (none) when the requested byte length exceeds the component's
byte length ("ab" with length 5) and when the offset falls inside a
multi-byte character (the two-byte letter é with length 1). -/
theorem C10_fish_slice_partial :
    fishComponentRender 5 (Component.normal "ab") = none ∧
    fishComponentRender 1 (Component.normal (String.singleton (Char.ofNat 233))) = none := by
  constructor
  · rfl
  · rfl

end StarshipDir
